import Mathlib

/-!
Verification of the event-sourcing write path of the CQRS task-manager
backend.  The definitions below are a shallow embedding of the TypeScript
sources:

* src/types/core.ts        — AggregateRoot (raiseEvent, loadFromHistory,
                             getUncommittedEvents, markEventsAsCommitted)
                             and TaskAggregate (createNew, complete, cancel,
                             update, applyEvent)
* src/infrastructure       — PostgreSQLEventStore (saveEvents,
                             getCurrentVersion, insertEvent),
                             EventSourcedTaskRepository (save),
                             InMemoryEventBus (publish, processEvent)
* src/services/task-service.ts — TaskService.createTask
* src/config/database.ts   — the event_store table with its
                             UNIQUE(aggregate_id, version) constraint,
                             modelled by the duplicate check in insertEvent.

JavaScript Date values are modelled as abstract Nat timestamps supplied as
parameters (the sources call new Date() at each mutation).  uuidv4() results
are likewise supplied as parameters.  Thrown errors are modelled with Except;
the error classes of the (not included) middleware/error-handler module are
plain records carrying exactly the data the call sites pass to them.
-/

set_option maxRecDepth 10000

deriving instance DecidableEq for Except

/-- JavaScript String.prototype.trim as used throughout task-aggregate.ts:
remove leading and trailing whitespace. -/
def jsTrim (s : String) : String :=
  ⟨((s.data.dropWhile Char.isWhitespace).reverse.dropWhile Char.isWhitespace).reverse⟩

/-- TaskPriority enum from src/types/task.ts. -/
inductive TaskPriority where
  | low
  | medium
  | high
deriving DecidableEq

/-- TaskStatus enum from src/types/task.ts. -/
inductive TaskStatus where
  | pending
  | completed
  | cancelled
deriving DecidableEq

/-- The string value of a TaskStatus enum member, as interpolated into
error messages by the TypeScript template literals. -/
def TaskStatus.str : TaskStatus → String
  | .pending => "pending"
  | .completed => "completed"
  | .cancelled => "cancelled"

/-- Payloads of the four task events of src/events/task-events.ts.
In TypeScript the payload shape is tied to the eventType discriminant of
the TaskEvent union; the sum type reproduces that closed union. -/
inductive EventPayload where
  | created (title : String) (description : Option String)
      (priority : TaskPriority) (createdBy : Option String)
  | completed (completedBy : Option String) (completionNote : Option String)
  | cancelled (reason : Option String) (cancelledBy : Option String)
  | updated (title : Option String) (description : Option String)
      (priority : Option TaskPriority) (updatedBy : Option String)
deriving DecidableEq

/-- DomainEvent of src/types/core.ts.  The metadata field (free-form
logging data, never read by replay or storage logic) is omitted. -/
structure DomainEvent where
  id : String
  aggregateId : String
  version : Int
  timestamp : Nat
  payload : EventPayload
deriving DecidableEq

/-- The eventType string discriminant of a domain event, determined by the
payload constructor exactly as in the TaskEvent union of task-events.ts. -/
def DomainEvent.eventType (e : DomainEvent) : String :=
  match e.payload with
  | .created _ _ _ _ => "TaskCreated"
  | .completed _ _ => "TaskCompleted"
  | .cancelled _ _ => "TaskCancelled"
  | .updated _ _ _ _ => "TaskUpdated"

/-- ValidationError of the middleware error-handler module: a message and
the offending field name, exactly the two arguments every throw site in
task-aggregate.ts passes. -/
structure ValidationError where
  message : String
  field : String
deriving DecidableEq

/-- TaskAggregate of src/domain/task-aggregate.ts together with the fields
it inherits from AggregateRoot (_id, _version, _uncommittedEvents). -/
structure TaskAggregate where
  id : String
  version : Int
  uncommittedEvents : List DomainEvent
  title : String
  description : Option String
  priority : TaskPriority
  status : TaskStatus
  createdAt : Nat
  updatedAt : Nat
  completedAt : Option Nat
  cancelledAt : Option Nat
deriving DecidableEq

namespace TaskAggregate

/-- The TaskAggregate constructor: AggregateRoot sets _version = 0 and an
empty buffer; the field initializers set title = '', priority MEDIUM,
status PENDING and both date fields to the construction instant. -/
def init (id : String) (now : Nat) : TaskAggregate :=
  { id := id
    version := 0
    uncommittedEvents := []
    title := ""
    description := none
    priority := .medium
    status := .pending
    createdAt := now
    updatedAt := now
    completedAt := none
    cancelledAt := none }

/-- applyEvent of TaskAggregate: dispatch on the event kind and update the
domain fields.  Note that no branch touches _version. -/
def applyEvent (t : TaskAggregate) (e : DomainEvent) : TaskAggregate :=
  match e.payload with
  | .created title description priority _ =>
      { t with
        title := title
        description := description
        priority := priority
        status := .pending
        createdAt := e.timestamp
        updatedAt := e.timestamp }
  | .completed _ _ =>
      { t with
        status := .completed
        completedAt := some e.timestamp
        updatedAt := e.timestamp }
  | .cancelled _ _ =>
      { t with
        status := .cancelled
        cancelledAt := some e.timestamp
        updatedAt := e.timestamp }
  | .updated title description priority _ =>
      { t with
        title := title.getD t.title
        description := match description with
          | some d => some d
          | none => t.description
        priority := priority.getD t.priority
        updatedAt := e.timestamp }

/-- raiseEvent of AggregateRoot: push the event onto the uncommitted buffer
and apply it.  Faithful to the source, it does not change _version. -/
def raiseEvent (t : TaskAggregate) (e : DomainEvent) : TaskAggregate :=
  applyEvent { t with uncommittedEvents := t.uncommittedEvents ++ [e] } e

/-- loadFromHistory of AggregateRoot: apply each event in order and
increment _version once per event. -/
def loadFromHistory (t : TaskAggregate) (events : List DomainEvent) : TaskAggregate :=
  events.foldl
    (fun acc e =>
      let applied := applyEvent acc e
      { applied with version := applied.version + 1 })
    t

/-- markEventsAsCommitted of AggregateRoot. -/
def markEventsAsCommitted (t : TaskAggregate) : TaskAggregate :=
  { t with uncommittedEvents := [] }

/-- TaskAggregate.createNew: validate, construct a fresh aggregate, build
the TaskCreated event (stamped version 1, trimmed title and description)
and raise it. -/
def createNew (freshId eventId : String) (now : Nat) (title : String)
    (description : Option String) (priority : TaskPriority)
    (createdBy : Option String) : Except ValidationError TaskAggregate :=
  if (jsTrim title).length = 0 then
    .error ⟨"Task title is required", "title"⟩
  else if title.length > 255 then
    .error ⟨"Task title must be less than 255 characters", "title"⟩
  else if (match description with
           | some d => decide (d.length > 1000)
           | none => false) then
    .error ⟨"Task description must be less than 1000 characters", "description"⟩
  else
    let task := init freshId now
    let event : DomainEvent :=
      { id := eventId
        aggregateId := freshId
        version := 1
        timestamp := now
        payload := .created (jsTrim title) (description.map jsTrim) priority createdBy }
    .ok (raiseEvent task event)

/-- TaskAggregate.complete: only allowed from PENDING; raises a
TaskCompleted event stamped with _version + 1. -/
def complete (t : TaskAggregate) (eventId : String) (now : Nat)
    (completedBy completionNote : Option String) :
    Except ValidationError TaskAggregate :=
  if t.status ≠ .pending then
    .error ⟨"Cannot complete task in " ++ t.status.str ++ " status", "status"⟩
  else
    .ok (raiseEvent t
      { id := eventId
        aggregateId := t.id
        version := t.version + 1
        timestamp := now
        payload := .completed completedBy completionNote })

/-- TaskAggregate.cancel: rejected on COMPLETED and on CANCELLED, each with
its own message; otherwise raises a TaskCancelled event. -/
def cancel (t : TaskAggregate) (eventId : String) (now : Nat)
    (reason cancelledBy : Option String) :
    Except ValidationError TaskAggregate :=
  if t.status = .completed then
    .error ⟨"Cannot cancel completed task", "status"⟩
  else if t.status = .cancelled then
    .error ⟨"Task is already cancelled", "status"⟩
  else
    .ok (raiseEvent t
      { id := eventId
        aggregateId := t.id
        version := t.version + 1
        timestamp := now
        payload := .cancelled reason cancelledBy })

/-- The updates argument of TaskAggregate.update; a missing field means the
caller did not supply it. -/
structure Updates where
  title : Option String
  description : Option String
  priority : Option TaskPriority
deriving DecidableEq

/-- The hasChanges computation inside TaskAggregate.update: a supplied
field counts as a change when its normalized (trimmed) value differs from
the current state. -/
def hasChanges (t : TaskAggregate) (u : Updates) : Bool :=
  (match u.title with
   | some s => decide (jsTrim s ≠ t.title)
   | none => false) ||
  (match u.description with
   | some d => decide (some (jsTrim d) ≠ t.description)
   | none => false) ||
  (match u.priority with
   | some p => decide (p ≠ t.priority)
   | none => false)

/-- TaskAggregate.update: guard on PENDING, validate the supplied fields,
return silently when nothing changed, otherwise raise one TaskUpdated event
carrying the trimmed supplied fields. -/
def update (t : TaskAggregate) (eventId : String) (now : Nat)
    (u : Updates) (updatedBy : Option String) :
    Except ValidationError TaskAggregate :=
  if t.status ≠ .pending then
    .error ⟨"Cannot update task in " ++ t.status.str ++ " status", "status"⟩
  else if (match u.title with
           | some s => decide ((jsTrim s).length = 0)
           | none => false) then
    .error ⟨"Task title is required", "title"⟩
  else if (match u.title with
           | some s => decide (s.length > 255)
           | none => false) then
    .error ⟨"Task title must be less than 255 characters", "title"⟩
  else if (match u.description with
           | some d => decide (d.length > 1000)
           | none => false) then
    .error ⟨"Task description must be less than 1000 characters", "description"⟩
  else if hasChanges t u then
    .ok (raiseEvent t
      { id := eventId
        aggregateId := t.id
        version := t.version + 1
        timestamp := now
        payload := .updated (u.title.map jsTrim) (u.description.map jsTrim)
          u.priority updatedBy })
  else
    .ok t

end TaskAggregate


/-- One row of the event_store table (src/config/database.ts): the version
column is the sequence number computed by the store, not the version field
stamped on the event object. -/
structure StoredEvent where
  eventId : String
  aggregateId : String
  eventType : String
  version : Int
  payload : EventPayload
  timestamp : Nat
deriving DecidableEq

/-- The event_store table in insertion order (the SERIAL id column is the
list position). -/
structure EventStoreState where
  rows : List StoredEvent
deriving DecidableEq

/-- ConflictError thrown by PostgreSQLEventStore.saveEvents; its message
interpolates the expected version, the actual current version and the
aggregate id, so the record keeps all three. -/
structure ConflictError where
  expectedVersion : Int
  currentVersion : Int
  aggregateId : String
deriving DecidableEq

/-- The message string of a ConflictError as built in saveEvents. -/
def ConflictError.message (c : ConflictError) : String :=
  "Concurrency conflict: Expected version " ++ toString c.expectedVersion ++
    ", but current version is " ++ toString c.currentVersion ++
    " for aggregate " ++ c.aggregateId

/-- Errors the event store can raise: the optimistic-concurrency conflict,
or a violation of the UNIQUE(aggregate_id, version) constraint declared in
initializeDatabase. -/
inductive StoreError where
  | conflict (c : ConflictError)
  | uniqueViolation (aggregateId : String) (version : Int)
deriving DecidableEq

namespace PostgreSQLEventStore

/-- The version column values of one aggregate's rows, in table order
(the row set that the SQL in getCurrentVersion aggregates over). -/
def versionsFor (s : EventStoreState) (aggregateId : String) : List Int :=
  (s.rows.filter (fun r => r.aggregateId = aggregateId)).map (fun r => r.version)

/-- COALESCE(MAX(version), 0) over a list of versions. -/
def maxVersion : List Int → Int
  | [] => 0
  | v :: vs => vs.foldl max v

/-- PostgreSQLEventStore.getCurrentVersion: highest stored version for the
aggregate, or 0 when it has no rows. -/
def getCurrentVersion (s : EventStoreState) (aggregateId : String) : Int :=
  maxVersion (versionsFor s aggregateId)

/-- The row INSERTed by PostgreSQLEventStore.insertEvent: every column
comes from the event except version, which is the value passed in by
saveEvents (the stamped event.version is ignored). -/
def toRow (e : DomainEvent) (version : Int) : StoredEvent :=
  { eventId := e.id
    aggregateId := e.aggregateId
    eventType := e.eventType
    version := version
    payload := e.payload
    timestamp := e.timestamp }

/-- PostgreSQLEventStore.insertEvent: append the row; the database rejects
a duplicate (aggregate_id, version) pair via the UNIQUE constraint. -/
def insertEvent (s : EventStoreState) (e : DomainEvent) (version : Int) :
    Except StoreError EventStoreState :=
  if s.rows.any (fun r => r.aggregateId = e.aggregateId ∧ r.version = version) then
    .error (.uniqueViolation e.aggregateId version)
  else
    .ok ⟨s.rows ++ [toRow e version]⟩

/-- The insertion loop of saveEvents: the i-th event (0-based) is stored
with version expectedVersion + i + 1; here base starts at expectedVersion
and the head of the list gets base + 1.  An error aborts the transaction,
so the error case yields no successor state (ROLLBACK: the caller keeps
the original state). -/
def insertLoop (s : EventStoreState) (events : List DomainEvent) (base : Int) :
    Except StoreError EventStoreState :=
  match events with
  | [] => .ok s
  | e :: rest =>
    match insertEvent s e (base + 1) with
    | .error err => .error err
    | .ok s' => insertLoop s' rest (base + 1)

/-- PostgreSQLEventStore.saveEvents: empty input is a no-op success;
otherwise compare the aggregate's current version with expectedVersion
inside the transaction, abort with a ConflictError on mismatch, and insert
the events with store-computed sequence numbers on match. -/
def saveEvents (s : EventStoreState) (aggregateId : String)
    (events : List DomainEvent) (expectedVersion : Int) :
    Except StoreError EventStoreState :=
  if events.length = 0 then
    .ok s
  else
    let currentVersion := getCurrentVersion s aggregateId
    if currentVersion ≠ expectedVersion then
      .error (.conflict ⟨expectedVersion, currentVersion, aggregateId⟩)
    else
      insertLoop s events expectedVersion

end PostgreSQLEventStore

namespace EventSourcedTaskRepository

/-- EventSourcedTaskRepository.save: read the uncommitted buffer; an empty
buffer is a no-op success; otherwise append at
expectedVersion = version - buffer length, clear the buffer on success and
rethrow the store's error unchanged on failure.  The returned pair is
(outcome, the aggregate after the call): the aggregate is mutated (buffer
cleared) only after a successful append. -/
def save (store : EventStoreState) (task : TaskAggregate) :
    Except StoreError EventStoreState × TaskAggregate :=
  let uncommittedEvents := task.uncommittedEvents
  if uncommittedEvents.length = 0 then
    (.ok store, task)
  else
    match PostgreSQLEventStore.saveEvents store task.id uncommittedEvents
        (task.version - uncommittedEvents.length) with
    | .error e => (.error e, task)
    | .ok store' => (.ok store', task.markEventsAsCommitted)

end EventSourcedTaskRepository

/-- Errors surfaced by TaskService: the aggregate's validation errors and
the event store's errors, both rethrown unchanged by the service. -/
inductive AppError where
  | validation (v : ValidationError)
  | store (e : StoreError)
deriving DecidableEq

namespace TaskService

/-- TaskService.createTask: build the aggregate via TaskAggregate.createNew
(priority defaulting to MEDIUM), save it through the repository, and return
the new task id with the updated store.  Event-bus publication follows a
successful save only and does not touch the event store, so it is not part
of this function's result. -/
def createTask (store : EventStoreState) (freshId eventId : String)
    (now : Nat) (title : String) (description : Option String)
    (priority : Option TaskPriority) (createdBy : Option String) :
    Except AppError (EventStoreState × String) :=
  match TaskAggregate.createNew freshId eventId now title description
      (priority.getD .medium) createdBy with
  | .error v => .error (.validation v)
  | .ok task =>
    match EventSourcedTaskRepository.save store task with
    | (.error e, _) => .error (.store e)
    | (.ok store', _) => .ok (store', task.id)

end TaskService

/-- Outcome of one event-handler invocation: ok, or the message of the
rejection that processEvent catches and logs. -/
inductive HandleResult where
  | ok
  | failed (message : String)
deriving DecidableEq

/-- An EventHandler subscriber (src/types/core.ts): its constructor name
(used in the logs), its canHandle predicate over event-type strings, and
its handle behaviour. -/
structure EventHandler where
  name : String
  canHandle : String → Bool
  handle : DomainEvent → HandleResult

namespace InMemoryEventBus

/-- InMemoryEventBus.processEvent: filter the subscribed handlers by
canHandle; no matching handler is not an error; every matching handler is
invoked, and a rejection is caught and recorded without propagating.  The
result is the list of (handler name, event id, outcome) delivery records. -/
def processEvent (handlers : List EventHandler) (event : DomainEvent) :
    List (String × String × HandleResult) :=
  let applicableHandlers := handlers.filter (fun h => h.canHandle event.eventType)
  if applicableHandlers.isEmpty then
    []
  else
    applicableHandlers.map (fun h => (h.name, event.id, h.handle event))

/-- InMemoryEventBus.publish: process each event in order; handler
failures never abort the loop and publish itself never fails. -/
def publish (handlers : List EventHandler) (events : List DomainEvent) :
    List (String × String × HandleResult) :=
  if events.isEmpty then
    []
  else
    events.flatMap (processEvent handlers)

end InMemoryEventBus

/-- The contiguous run of sequence numbers base + 1, ..., base + n. -/
def seqVersions (base : Int) : Nat → List Int
  | 0 => []
  | Nat.succ n => (base + 1) :: seqVersions (base + 1) n

/-- The rows that a successful insertLoop appends for a batch starting
above base: one row per event, versions base + 1, base + 2, .... -/
def PostgreSQLEventStore.mkRows (base : Int) : List DomainEvent → List StoredEvent
  | [] => []
  | e :: rest => PostgreSQLEventStore.toRow e (base + 1) :: PostgreSQLEventStore.mkRows (base + 1) rest

/-! Shared lemmas about the aggregate kernel. -/

/-- applyEvent never changes the version field (no branch of the
TypeScript switch assigns _version). -/
theorem TaskAggregate.applyEvent_version (t : TaskAggregate) (e : DomainEvent) :
    (t.applyEvent e).version = t.version := by
  rcases e with ⟨_, _, _, _, p⟩
  cases p <;> rfl

/-- applyEvent never changes the uncommitted-event buffer. -/
theorem TaskAggregate.applyEvent_uncommitted (t : TaskAggregate) (e : DomainEvent) :
    (t.applyEvent e).uncommittedEvents = t.uncommittedEvents := by
  rcases e with ⟨_, _, _, _, p⟩
  cases p <;> rfl

/-- loadFromHistory advances the version by exactly one per replayed
event. -/
theorem TaskAggregate.loadFromHistory_version (events : List DomainEvent)
    (t : TaskAggregate) :
    (t.loadFromHistory events).version = t.version + events.length := by
  induction events generalizing t with
  | nil => simp [TaskAggregate.loadFromHistory]
  | cons e rest ih =>
    have h1 : t.loadFromHistory (e :: rest) =
        TaskAggregate.loadFromHistory
          { t.applyEvent e with version := (t.applyEvent e).version + 1 } rest := rfl
    rw [h1, ih]
    simp [TaskAggregate.applyEvent_version]
    omega

/-! Concrete fixtures used by the claim theorems. -/

/-- The aggregate produced by TaskAggregate.createNew for title "A" and
fresh id t2 at time 0: one TaskCreated event in the buffer, version still
0. -/
def task2 : TaskAggregate :=
  { id := "t2", version := 0
    uncommittedEvents := [⟨"e2", "t2", 1, 0, .created "A" none .medium none⟩]
    title := "A", description := none, priority := .medium
    status := .pending, createdAt := 0, updatedAt := 0
    completedAt := none, cancelledAt := none }

/-- The aggregate produced by TaskAggregate.createNew for title "A" with
fresh id t3 at time 0: one TaskCreated event in the buffer, version still
0. -/
def task3a : TaskAggregate :=
  { id := "t3", version := 0
    uncommittedEvents := [⟨"e3a", "t3", 1, 0, .created "A" (some "d") .high none⟩]
    title := "A", description := some "d", priority := .high
    status := .pending, createdAt := 0, updatedAt := 0
    completedAt := none, cancelledAt := none }

/-- task3a after complete at time 5: TaskCompleted appended to the buffer,
version still 0. -/
def task3b : TaskAggregate :=
  { id := "t3", version := 0
    uncommittedEvents := [⟨"e3a", "t3", 1, 0, .created "A" (some "d") .high none⟩,
                          ⟨"e3b", "t3", 1, 5, .completed (some "bob") none⟩]
    title := "A", description := some "d", priority := .high
    status := .completed, createdAt := 0, updatedAt := 5
    completedAt := some 5, cancelledAt := none }

/-- C1: the claim says that for every valid creation input the save during
creation succeeds and an immediate load returns a version-1 aggregate with
the created fields.  The code cannot do this: raiseEvent never advances
_version, so after createNew the aggregate has version 0 with one buffered
event, the repository computes expectedVersion = 0 - 1 = -1, and the event
store — whose current version for a fresh aggregate is 0 — always answers
with a concurrency conflict.  Evaluated here on the valid input title "A"
(empty store): createTask fails with ConflictError(expected -1, actual 0),
so the save performed during creation always fails and the load never
happens. -/
theorem createTask_always_conflicts :
    TaskService.createTask ⟨[]⟩ "t1" "e1" 0 "A" none none none =
      .error (.store (.conflict ⟨-1, 0, "t1"⟩)) := by
  decide

/-- C2: the claim says the version always equals the number of events
applied, for replay and for live mutation alike.  The replay half is true
(first conjunct: loadFromHistory adds one per event), but the live path is
not: createNew applies one TaskCreated event via raiseEvent yet leaves the
version at 0 (second conjunct), because AggregateRoot.raiseEvent never
increments _version. -/
theorem version_equals_applied_event_count :
    (∀ (t : TaskAggregate) (events : List DomainEvent),
      (t.loadFromHistory events).version = t.version + events.length)
    ∧ (∃ t, TaskAggregate.createNew "t2" "e2" 0 "A" none .medium none = .ok t
        ∧ t.uncommittedEvents.length = 1 ∧ t.version = 0) := by
  constructor
  · intro t events
    exact TaskAggregate.loadFromHistory_version events t
  · exact ⟨task2, by decide, by decide, by decide⟩

/-- C3: the claim says folding the history produced by live mutations from
a fresh aggregate reproduces the live aggregate's state, including the
version.  On the concrete run create("A") then complete at time 5, the
domain fields do coincide, but the versions do not: the replayed aggregate
has version 2 while the live one still has version 0, again because
raiseEvent does not advance _version while loadFromHistory does. -/
theorem replay_matches_fields_but_not_version :
    TaskAggregate.createNew "t3" "e3a" 0 "A" (some " d ") .high none = .ok task3a
    ∧ task3a.complete "e3b" 5 (some "bob") none = .ok task3b
    ∧ (let r := (TaskAggregate.init "t3" 42).loadFromHistory task3b.uncommittedEvents
       r.title = task3b.title ∧ r.description = task3b.description
       ∧ r.priority = task3b.priority ∧ r.status = task3b.status
       ∧ r.createdAt = task3b.createdAt ∧ r.updatedAt = task3b.updatedAt
       ∧ r.completedAt = task3b.completedAt ∧ r.cancelledAt = task3b.cancelledAt
       ∧ r.version = 2 ∧ task3b.version = 0) := by
  decide

/-- insertLoop can only fail with a uniqueness violation, never with a
concurrency conflict: the version check happens before the loop. -/
theorem PostgreSQLEventStore.insertLoop_ne_conflict (events : List DomainEvent)
    (s : EventStoreState) (base : Int) (c : ConflictError) :
    PostgreSQLEventStore.insertLoop s events base ≠ .error (.conflict c) := by
  induction events generalizing s base with
  | nil => simp [PostgreSQLEventStore.insertLoop]
  | cons e rest ih =>
    unfold PostgreSQLEventStore.insertLoop PostgreSQLEventStore.insertEvent
    by_cases hdup :
      (s.rows.any fun r => decide (r.aggregateId = e.aggregateId ∧ r.version = base + 1)) = true
    · rw [if_pos hdup]
      simp
    · rw [if_neg hdup]
      exact ih _ _

/-- C4: saveEvents signals a concurrency conflict exactly when the batch
is non-empty and the stored current version differs from expectedVersion;
an empty batch is a no-op success, and the ConflictError carries both the
expected and the actual version (its message interpolates both).  On the
error path the function yields no successor store state: the transaction
is rolled back and the caller keeps the original store, so none of the
batch is durably stored. -/
theorem saveEvents_conflict_iff (s : EventStoreState) (aggregateId : String)
    (events : List DomainEvent) (expectedVersion : Int) :
    (events = [] →
      PostgreSQLEventStore.saveEvents s aggregateId events expectedVersion = .ok s)
    ∧ ((∃ c, PostgreSQLEventStore.saveEvents s aggregateId events expectedVersion =
          .error (.conflict c)) ↔
        (events ≠ [] ∧
          PostgreSQLEventStore.getCurrentVersion s aggregateId ≠ expectedVersion))
    ∧ (∀ c, PostgreSQLEventStore.saveEvents s aggregateId events expectedVersion =
          .error (.conflict c) →
        c = ⟨expectedVersion, PostgreSQLEventStore.getCurrentVersion s aggregateId,
             aggregateId⟩) := by
  unfold PostgreSQLEventStore.saveEvents
  rcases events with _ | ⟨e, rest⟩
  · simp
  · by_cases hv :
      PostgreSQLEventStore.getCurrentVersion s aggregateId = expectedVersion
    · simp [hv]
      constructor
      · intro c
        exact PostgreSQLEventStore.insertLoop_ne_conflict _ _ _ _
      · intro c hc
        exact absurd hc (PostgreSQLEventStore.insertLoop_ne_conflict _ _ _ _)
    · simp [hv]

/-- C4 witness: a non-empty batch against an empty store with a wrong
expected version signals a concurrency conflict. -/
theorem saveEvents_conflict_iff_witness :
    ∃ c, PostgreSQLEventStore.saveEvents ⟨[]⟩ "x"
        [⟨"e4", "x", 1, 0, .created "X" none .low none⟩] 5 =
      .error (.conflict c) :=
  ((saveEvents_conflict_iff ⟨[]⟩ "x"
      [⟨"e4", "x", 1, 0, .created "X" none .low none⟩] 5).2.1).mpr
    ⟨by decide, by decide⟩

/-- C5: the repository's save propagates an event-store error unchanged
(no retry) and returns the aggregate untouched, its uncommitted buffer
intact; on a successful append — and only then — the buffer is cleared.
The returned pair's second component is the aggregate after the call, so
the error conjunct states that the caller's aggregate is exactly the one
passed in. -/
theorem save_propagates_conflict_and_preserves_buffer (store : EventStoreState)
    (task : TaskAggregate) :
    (∀ e, PostgreSQLEventStore.saveEvents store task.id task.uncommittedEvents
        (task.version - task.uncommittedEvents.length) = .error e →
      EventSourcedTaskRepository.save store task = (.error e, task))
    ∧ (∀ store', PostgreSQLEventStore.saveEvents store task.id task.uncommittedEvents
        (task.version - task.uncommittedEvents.length) = .ok store' →
      EventSourcedTaskRepository.save store task =
        (.ok store', task.markEventsAsCommitted)) := by
  unfold EventSourcedTaskRepository.save
  by_cases hlen : task.uncommittedEvents.length = 0
  · have hnil : task.uncommittedEvents = [] := List.length_eq_zero.mp hlen
    have hmk : task.markEventsAsCommitted = task := by
      unfold TaskAggregate.markEventsAsCommitted
      cases task
      simp_all
    constructor
    · intro e he
      simp [PostgreSQLEventStore.saveEvents, hnil] at he
    · intro store' hs
      simp [PostgreSQLEventStore.saveEvents, hnil] at hs
      simp [hlen, hmk, hs]
  · constructor
    · intro e he
      simp only [if_neg hlen]
      rw [he]
    · intro store' hs
      simp only [if_neg hlen]
      rw [hs]

/-- C5 witness: the aggregate fresh out of createNew("A") against an
empty store hits the concurrency conflict (expected -1, actual 0); save
returns that very error and the aggregate with its one-event buffer
untouched. -/
theorem save_propagates_conflict_witness :
    EventSourcedTaskRepository.save ⟨[]⟩ task2 =
      (.error (.conflict ⟨-1, 0, "t2"⟩), task2) :=
  (save_propagates_conflict_and_preserves_buffer ⟨[]⟩ task2).1
    (.conflict ⟨-1, 0, "t2"⟩) (by decide)

/-- C6: on an aggregate whose status is COMPLETED or CANCELLED both
complete and cancel fail with a ValidationError and raise no event — the
mutation returns only the error, leaving the caller's aggregate, version
and buffer untouched (the throw happens before raiseEvent).  The complete
error names the offending state in its message; cancel distinguishes the
two terminal states with dedicated messages. -/
theorem terminal_state_guard (t : TaskAggregate) (eventId : String) (now : Nat)
    (completedBy completionNote reason cancelledBy : Option String)
    (h : t.status = .completed ∨ t.status = .cancelled) :
    t.complete eventId now completedBy completionNote =
      .error ⟨"Cannot complete task in " ++ t.status.str ++ " status", "status"⟩
    ∧ t.cancel eventId now reason cancelledBy =
      .error (if t.status = .completed then
                ⟨"Cannot cancel completed task", "status"⟩
              else
                ⟨"Task is already cancelled", "status"⟩) := by
  rcases h with h | h <;>
    simp [TaskAggregate.complete, TaskAggregate.cancel, h]

/-- C6 witness: a concrete completed aggregate and a concrete cancelled
aggregate are both rejected by complete and by cancel with the exact
messages. -/
theorem terminal_state_guard_witness :
    (TaskAggregate.complete { TaskAggregate.init "t6" 0 with status := .completed }
        "e6" 1 none none =
      .error ⟨"Cannot complete task in completed status", "status"⟩
    ∧ TaskAggregate.cancel { TaskAggregate.init "t6" 0 with status := .completed }
        "e6" 1 none none =
      .error ⟨"Cannot cancel completed task", "status"⟩)
    ∧ (TaskAggregate.complete { TaskAggregate.init "t6" 0 with status := .cancelled }
        "e6" 1 none none =
      .error ⟨"Cannot complete task in cancelled status", "status"⟩
    ∧ TaskAggregate.cancel { TaskAggregate.init "t6" 0 with status := .cancelled }
        "e6" 1 none none =
      .error ⟨"Task is already cancelled", "status"⟩) :=
  ⟨terminal_state_guard _ "e6" 1 none none none none (Or.inl rfl),
   terminal_state_guard _ "e6" 1 none none none none (Or.inr rfl)⟩

/-! Fixtures for the update claims. -/

/-- The aggregate produced by TaskAggregate.createNew for title "A" and
fresh id t7: a Pending task whose current title is "A". -/
def task7 : TaskAggregate :=
  { id := "t7", version := 0
    uncommittedEvents := [⟨"e7a", "t7", 1, 0, .created "A" none .medium none⟩]
    title := "A", description := none, priority := .medium
    status := .pending, createdAt := 0, updatedAt := 0
    completedAt := none, cancelledAt := none }

/-- A 256-character title that trims to "A": identical to task7's current
title after trimming, but over the raw 255-character limit. -/
def paddedTitle : String := "A".pushn ' ' 255

/-- C7 counterexample: the claim promises that an update whose supplied
values are all identical (after trimming) to the current state is a
successful no-op.  But validation runs on the raw supplied value before
the no-op check: a title that trims to the current title yet is longer
than 255 characters raw makes update throw a ValidationError instead of
succeeding, refuting the claim as stated. -/
theorem noop_update_counterexample :
    TaskAggregate.createNew "t7" "e7a" 0 "A" none .medium none = .ok task7
    ∧ task7.status = .pending
    ∧ paddedTitle.length = 256
    ∧ jsTrim paddedTitle = task7.title
    ∧ TaskAggregate.update task7 "e7b" 1 ⟨some paddedTitle, none, none⟩ none =
        .error ⟨"Task title must be less than 255 characters", "title"⟩ := by
  decide

/-- C7 amended: on a Pending aggregate, an update whose supplied values
are all identical (after trimming) to the current state AND pass the raw
field validation (supplied title non-empty after trimming and at most 255
characters raw; supplied description at most 1000 characters raw) is a
deliberate no-op: it succeeds, produces zero new events and changes
nothing — the result is the very same aggregate. -/
theorem noop_update_is_identity (t : TaskAggregate) (eventId : String) (now : Nat)
    (u : TaskAggregate.Updates) (updatedBy : Option String)
    (hst : t.status = .pending)
    (ht : ∀ s, u.title = some s →
      jsTrim s = t.title ∧ (jsTrim s).length ≠ 0 ∧ s.length ≤ 255)
    (hd : ∀ d, u.description = some d →
      some (jsTrim d) = t.description ∧ d.length ≤ 1000)
    (hp : ∀ p, u.priority = some p → p = t.priority) :
    TaskAggregate.update t eventId now u updatedBy = .ok t := by
  rcases u with ⟨ut, ud, up⟩
  unfold TaskAggregate.update TaskAggregate.hasChanges
  rcases ut with _ | s <;> rcases ud with _ | d <;> rcases up with _ | p <;>
    simp_all [hst] <;>
    obtain ⟨ht1, ht2, ht3⟩ := ht <;>
    rw [ht1] at ht2 <;>
    (try obtain ⟨hd1, hd2⟩ := hd) <;>
    split_ifs <;>
    first
    | rfl
    | omega

/-- C7 witness: updating task7 with its own title, no description and its
own priority is accepted as a no-op returning the unchanged aggregate. -/
theorem noop_update_is_identity_witness :
    TaskAggregate.update task7 "e7w" 1 ⟨some "A", none, some .medium⟩ none =
      .ok task7 :=
  noop_update_is_identity task7 "e7w" 1 ⟨some "A", none, some .medium⟩ none rfl
    (fun s hs => by injection hs with h; subst h; exact ⟨by decide, by decide, by decide⟩)
    (fun d hd => nomatch hd)
    (fun p hp => by injection hp with h; subst h; rfl)

/-- The aggregate produced by TaskAggregate.createNew for title "A" and
fresh id t8: a Pending task with title "A" and priority MEDIUM. -/
def task8 : TaskAggregate :=
  { id := "t8", version := 0
    uncommittedEvents := [⟨"e8a", "t8", 1, 0, .created "A" none .medium none⟩]
    title := "A", description := none, priority := .medium
    status := .pending, createdAt := 0, updatedAt := 0
    completedAt := none, cancelledAt := none }

/-- task8 after update(title "B", priority MEDIUM): the single TaskUpdated
event appended to the buffer. -/
def task8b : TaskAggregate :=
  { id := "t8", version := 0
    uncommittedEvents := [⟨"e8a", "t8", 1, 0, .created "A" none .medium none⟩,
                          ⟨"e8b", "t8", 1, 3, .updated (some "B") none (some .medium) (some "u")⟩]
    title := "B", description := none, priority := .medium
    status := .pending, createdAt := 0, updatedAt := 3
    completedAt := none, cancelledAt := none }

/-- C8 counterexample: the claim says the update event's payload carries
only the fields that changed.  Updating task8 (title "A", priority MEDIUM)
with title "B" and priority MEDIUM changes only the title, yet the emitted
event's payload carries priority = MEDIUM as well: the code copies every
supplied field into the payload (updates.priority), changed or not. -/
theorem update_payload_counterexample :
    TaskAggregate.createNew "t8" "e8a" 0 "A" none .medium none = .ok task8
    ∧ task8.priority = .medium
    ∧ TaskAggregate.update task8 "e8b" 3 ⟨some "B", none, some .medium⟩ (some "u") =
        .ok task8b
    ∧ task8b.uncommittedEvents = task8.uncommittedEvents ++
        [⟨"e8b", "t8", 1, 3, .updated (some "B") none (some .medium) (some "u")⟩] := by
  decide

/-- C8 amended: when update is called on a Pending aggregate with valid
supplied fields and at least one actual change, it produces exactly one
TaskUpdated event whose payload carries exactly the supplied fields
(title and description trimmed) — not only the changed ones; fields not
supplied are unset in the payload and unchanged in the aggregate after the
event is applied, and the version does not move. -/
theorem update_event_carries_supplied_fields (t : TaskAggregate)
    (eventId : String) (now : Nat) (u : TaskAggregate.Updates)
    (updatedBy : Option String)
    (hst : t.status = .pending)
    (ht : ∀ s, u.title = some s → (jsTrim s).length ≠ 0 ∧ s.length ≤ 255)
    (hd : ∀ d, u.description = some d → d.length ≤ 1000)
    (hc : TaskAggregate.hasChanges t u = true) :
    ∃ ev : DomainEvent,
      TaskAggregate.update t eventId now u updatedBy = .ok (t.raiseEvent ev)
      ∧ ev.payload = .updated (u.title.map jsTrim) (u.description.map jsTrim)
          u.priority updatedBy
      ∧ ev.id = eventId ∧ ev.aggregateId = t.id ∧ ev.timestamp = now
      ∧ (t.raiseEvent ev).uncommittedEvents = t.uncommittedEvents ++ [ev]
      ∧ (t.raiseEvent ev).version = t.version
      ∧ (u.title = none → (t.raiseEvent ev).title = t.title)
      ∧ (u.description = none → (t.raiseEvent ev).description = t.description)
      ∧ (u.priority = none → (t.raiseEvent ev).priority = t.priority) := by
  have h1 : (match u.title with
             | some s => decide ((jsTrim s).length = 0)
             | none => false) = false := by
    rcases hu : u.title with _ | s
    · rfl
    · simpa using (ht s hu).1
  have h2 : (match u.title with
             | some s => decide (s.length > 255)
             | none => false) = false := by
    rcases hu : u.title with _ | s
    · rfl
    · simpa using Nat.not_lt.mpr (ht s hu).2
  have h3 : (match u.description with
             | some d => decide (d.length > 1000)
             | none => false) = false := by
    rcases hu : u.description with _ | d
    · rfl
    · simpa using Nat.not_lt.mpr (hd d hu)
  refine ⟨⟨eventId, t.id, t.version + 1, now,
    .updated (u.title.map jsTrim) (u.description.map jsTrim) u.priority updatedBy⟩,
    ?_, rfl, rfl, rfl, rfl, ?_, ?_, ?_, ?_, ?_⟩
  · unfold TaskAggregate.update
    simp [hst, h1, h2, h3, hc]
  · simp [TaskAggregate.raiseEvent, TaskAggregate.applyEvent_uncommitted]
  · simp [TaskAggregate.raiseEvent, TaskAggregate.applyEvent_version]
  · intro h
    simp [TaskAggregate.raiseEvent, TaskAggregate.applyEvent, h]
  · intro h
    simp [TaskAggregate.raiseEvent, TaskAggregate.applyEvent, h]
  · intro h
    simp [TaskAggregate.raiseEvent, TaskAggregate.applyEvent, h]

/-- C8 witness: updating task8 with only a new title "B" produces one
TaskUpdated event whose payload has the supplied title set and the
unsupplied description and priority unset, leaving those fields and the
version unchanged. -/
theorem update_event_carries_supplied_fields_witness :
    ∃ ev : DomainEvent,
      TaskAggregate.update task8 "e8w" 3 ⟨some "B", none, none⟩ none =
        .ok (task8.raiseEvent ev)
      ∧ ev.payload = .updated ((some "B").map jsTrim)
          ((none : Option String).map jsTrim) none none
      ∧ ev.id = "e8w" ∧ ev.aggregateId = task8.id ∧ ev.timestamp = 3
      ∧ (task8.raiseEvent ev).uncommittedEvents = task8.uncommittedEvents ++ [ev]
      ∧ (task8.raiseEvent ev).version = task8.version
      ∧ ((some "B" : Option String) = none → (task8.raiseEvent ev).title = task8.title)
      ∧ ((none : Option String) = none →
          (task8.raiseEvent ev).description = task8.description)
      ∧ ((none : Option TaskPriority) = none →
          (task8.raiseEvent ev).priority = task8.priority) :=
  update_event_carries_supplied_fields task8 "e8w" 3 ⟨some "B", none, none⟩ none rfl
    (fun s hs => by injection hs with h; subst h; exact ⟨by decide, by decide⟩)
    (fun d hdd => nomatch hdd)
    (by decide)

/-- Membership in the delivery log of processEvent: exactly the
(name, event id, outcome) records of the handlers whose canHandle accepts
the event's type. -/
theorem InMemoryEventBus.processEvent_mem (handlers : List EventHandler)
    (e : DomainEvent) (x : String × String × HandleResult) :
    x ∈ InMemoryEventBus.processEvent handlers e ↔
      ∃ h, h ∈ handlers ∧ h.canHandle e.eventType = true
        ∧ x = (h.name, e.id, h.handle e) := by
  unfold InMemoryEventBus.processEvent
  by_cases hemp : (handlers.filter (fun h => h.canHandle e.eventType)).isEmpty = true
  · rw [if_pos hemp]
    rw [List.isEmpty_iff] at hemp
    simp only [List.not_mem_nil, false_iff]
    rintro ⟨h, hmem, hcan, _⟩
    have : h ∈ handlers.filter (fun h => h.canHandle e.eventType) :=
      List.mem_filter.mpr ⟨hmem, hcan⟩
    rw [hemp] at this
    exact List.not_mem_nil h this
  · rw [if_neg hemp]
    constructor
    · intro hx
      obtain ⟨h, hmem, hx⟩ := List.mem_map.mp hx
      obtain ⟨hmem', hcan⟩ := List.mem_filter.mp hmem
      exact ⟨h, hmem', hcan, hx.symm⟩
    · rintro ⟨h, hmem, hcan, rfl⟩
      exact List.mem_map.mpr ⟨h, List.mem_filter.mpr ⟨hmem, hcan⟩, rfl⟩

/-- C9: publish delivers every event in the list to every registered
handler whose canHandle predicate accepts that event's type, and nothing
else; the outcome of one handler (including a failure, caught inside
processEvent) never removes another matching (event, handler) pair from
the delivery log, later events included, and publish itself is total — it
returns a log, never an error, so an event with no matching handler and a
throwing handler are both non-errors. -/
theorem publish_delivers_to_all_matching (handlers : List EventHandler)
    (events : List DomainEvent) :
    (∀ e, e ∈ events → ∀ h, h ∈ handlers → h.canHandle e.eventType = true →
      (h.name, e.id, h.handle e) ∈ InMemoryEventBus.publish handlers events)
    ∧ (∀ x, x ∈ InMemoryEventBus.publish handlers events →
      ∃ e, e ∈ events ∧ ∃ h, h ∈ handlers ∧ h.canHandle e.eventType = true
        ∧ x = (h.name, e.id, h.handle e)) := by
  have hpub : ∀ x, x ∈ InMemoryEventBus.publish handlers events ↔
      ∃ e, e ∈ events ∧ x ∈ InMemoryEventBus.processEvent handlers e := by
    intro x
    unfold InMemoryEventBus.publish
    by_cases hemp : events.isEmpty = true
    · rw [if_pos hemp]
      rw [List.isEmpty_iff] at hemp
      subst hemp
      simp
    · rw [if_neg hemp]
      exact List.mem_flatMap
  constructor
  · intro e hee h hh hcan
    exact (hpub _).mpr ⟨e, hee,
      (InMemoryEventBus.processEvent_mem handlers e _).mpr ⟨h, hh, hcan, rfl⟩⟩
  · intro x hx
    obtain ⟨e, hee, hpe⟩ := (hpub x).mp hx
    obtain ⟨h, hh, hcan, hxx⟩ :=
      (InMemoryEventBus.processEvent_mem handlers e x).mp hpe
    exact ⟨e, hee, h, hh, hcan, hxx⟩

/-- A subscriber that accepts only TaskCreated events and always throws. -/
def handlerA : EventHandler :=
  ⟨"A", fun ty => ty == "TaskCreated", fun _ => .failed "boom"⟩

/-- A subscriber that accepts TaskCreated and TaskCompleted events and
always succeeds. -/
def handlerB : EventHandler :=
  ⟨"B", fun ty => ty == "TaskCreated" || ty == "TaskCompleted", fun _ => .ok⟩

/-- A TaskCreated event fixture for the event-bus witness. -/
def ev9a : DomainEvent := ⟨"e9a", "t9", 1, 0, .created "X" none .low none⟩

/-- A TaskCompleted event fixture for the event-bus witness. -/
def ev9b : DomainEvent := ⟨"e9b", "t9", 2, 1, .completed none none⟩

/-- C9 witness: with a throwing handler A and a succeeding handler B, both
matching handlers still receive the first event, and the second event is
still delivered to its matching handler after A's failure. -/
theorem publish_delivers_to_all_matching_witness :
    ("A", "e9a", HandleResult.failed "boom") ∈
      InMemoryEventBus.publish [handlerA, handlerB] [ev9a, ev9b]
    ∧ ("B", "e9a", HandleResult.ok) ∈
      InMemoryEventBus.publish [handlerA, handlerB] [ev9a, ev9b]
    ∧ ("B", "e9b", HandleResult.ok) ∈
      InMemoryEventBus.publish [handlerA, handlerB] [ev9a, ev9b] :=
  ⟨(publish_delivers_to_all_matching [handlerA, handlerB] [ev9a, ev9b]).1
      ev9a (by decide) handlerA (List.Mem.head _) rfl,
   (publish_delivers_to_all_matching [handlerA, handlerB] [ev9a, ev9b]).1
      ev9a (by decide) handlerB (List.Mem.tail _ (List.Mem.head _)) rfl,
   (publish_delivers_to_all_matching [handlerA, handlerB] [ev9a, ev9b]).1
      ev9b (by decide) handlerB (List.Mem.tail _ (List.Mem.head _)) rfl⟩

/-! Lemmas about contiguous version runs. -/

/-- seqVersions has the stated length. -/
theorem seqVersions_length (n : Nat) : ∀ (b : Int), (seqVersions b n).length = n := by
  induction n with
  | zero => intro b; rfl
  | succ m ih =>
    intro b
    simp [seqVersions, ih (b + 1)]

/-- The i-th element of the run base + 1 .. base + n is base + i + 1. -/
theorem seqVersions_get (n : Nat) : ∀ (b : Int) (i : Nat)
    (hi : i < (seqVersions b n).length),
    (seqVersions b n).get ⟨i, hi⟩ = b + i + 1 := by
  induction n with
  | zero =>
    intro b i hi
    simp [seqVersions] at hi
  | succ m ih =>
    intro b i hi
    cases i with
    | zero => simp [seqVersions]
    | succ j =>
      have hj : j < (seqVersions (b + 1) m).length := by
        have := hi
        simp [seqVersions] at this
        simpa [seqVersions_length] using this
      have := ih (b + 1) j hj
      simp only [seqVersions, List.get_cons_succ]
      rw [this]
      push_cast
      ring

/-- Concatenating adjacent runs yields one contiguous run. -/
theorem seqVersions_append (k : Nat) (n : Nat) : ∀ (b : Int),
    seqVersions b n ++ seqVersions (b + n) k = seqVersions b (n + k) := by
  induction n with
  | zero =>
    intro b
    simp [seqVersions]
  | succ m ih =>
    intro b
    have hb : b + ((m + 1 : Nat) : Int) = (b + 1) + (m : Int) := by push_cast; ring
    show (b + 1) :: (seqVersions (b + 1) m ++ seqVersions (b + ((m + 1 : Nat) : Int)) k) = _
    rw [hb, ih (b + 1), Nat.succ_add]
    rfl

/-- Folding max over a run starting above the accumulator reaches the last
element. -/
theorem foldl_max_seqVersions (n : Nat) : ∀ (b : Int),
    (seqVersions b n).foldl max b = b + n := by
  induction n with
  | zero =>
    intro b
    simp [seqVersions]
  | succ m ih =>
    intro b
    show (seqVersions (b + 1) m).foldl max (max b (b + 1)) = _
    rw [max_eq_right (by omega : b ≤ b + 1), ih (b + 1)]
    push_cast
    ring

/-- COALESCE(MAX(-), 0) of the run 1 .. n is n. -/
theorem maxVersion_seqVersions (n : Nat) :
    PostgreSQLEventStore.maxVersion (seqVersions 0 n) = n := by
  cases n with
  | zero => rfl
  | succ m =>
    show (seqVersions ((0 : Int) + 1) m).foldl max ((0 : Int) + 1) = ((m + 1 : Nat) : Int)
    rw [foldl_max_seqVersions m ((0 : Int) + 1)]
    push_cast
    ring

/-- Every element of the run base + 1 .. base + n is at most base + n. -/
theorem mem_seqVersions_le (n : Nat) : ∀ (b v : Int),
    v ∈ seqVersions b n → v ≤ b + n := by
  induction n with
  | zero =>
    intro b v h
    simp [seqVersions] at h
  | succ m ih =>
    intro b v h
    simp only [seqVersions, List.mem_cons] at h
    rcases h with rfl | h
    · push_cast; omega
    · have := ih (b + 1) v h
      push_cast at this ⊢
      omega

/-- The version column of the rows built for a batch is exactly the run
base + 1 .. base + length: the store computes each stored sequence number
as expectedVersion + i + 1 and never reads the event's own version
field. -/
theorem mkRows_map_version (events : List DomainEvent) : ∀ (base : Int),
    (PostgreSQLEventStore.mkRows base events).map StoredEvent.version =
      seqVersions base events.length := by
  induction events with
  | nil => intro base; rfl
  | cons e rest ih =>
    intro base
    show StoredEvent.version (PostgreSQLEventStore.toRow e (base + 1)) ::
        (PostgreSQLEventStore.mkRows (base + 1) rest).map StoredEvent.version =
      (base + 1) :: seqVersions (base + 1) rest.length
    rw [ih (base + 1)]
    rfl

/-- versionsFor distributes over table concatenation. -/
theorem versionsFor_append (rows1 rows2 : List StoredEvent) (a : String) :
    PostgreSQLEventStore.versionsFor ⟨rows1 ++ rows2⟩ a =
      PostgreSQLEventStore.versionsFor ⟨rows1⟩ a ++
        PostgreSQLEventStore.versionsFor ⟨rows2⟩ a := by
  simp [PostgreSQLEventStore.versionsFor, List.filter_append]

/-- For a batch whose events all belong to aggregate a, the appended rows
contribute exactly the contiguous run base + 1 .. base + length to that
aggregate's version column. -/
theorem versionsFor_mkRows (events : List DomainEvent) (a : String) :
    (∀ e ∈ events, e.aggregateId = a) → ∀ (base : Int),
    PostgreSQLEventStore.versionsFor ⟨PostgreSQLEventStore.mkRows base events⟩ a =
      seqVersions base events.length := by
  induction events with
  | nil => intro _ base; rfl
  | cons e rest ih =>
    intro hagg base
    have hae : e.aggregateId = a := hagg e (List.mem_cons_self e rest)
    have htail : ∀ e' ∈ rest, e'.aggregateId = a :=
      fun e' he' => hagg e' (List.mem_cons_of_mem e he')
    unfold PostgreSQLEventStore.versionsFor at ih ⊢
    show ((PostgreSQLEventStore.toRow e (base + 1) ::
        PostgreSQLEventStore.mkRows (base + 1) rest).filter
          (fun r => r.aggregateId = a)).map (fun r => r.version) =
      seqVersions base (rest.length + 1)
    rw [List.filter_cons]
    have hrowagg : (decide ((PostgreSQLEventStore.toRow e (base + 1)).aggregateId = a)) = true := by
      simp [PostgreSQLEventStore.toRow, hae]
    rw [if_pos hrowagg]
    show (PostgreSQLEventStore.toRow e (base + 1)).version ::
        ((PostgreSQLEventStore.mkRows (base + 1) rest).filter
          (fun r => r.aggregateId = a)).map (fun r => r.version) = _
    rw [ih htail (base + 1)]
    rfl

/-- A successful insertLoop appends exactly the rows of mkRows: every
uniqueness check passes because all existing rows of the aggregate sit at
or below base and the new rows are assigned strictly increasing versions
above base. -/
theorem insertLoop_ok (events : List DomainEvent) : ∀ (s : EventStoreState)
    (base : Int) (a : String),
    (∀ e ∈ events, e.aggregateId = a) →
    (∀ r ∈ s.rows, r.aggregateId = a → r.version ≤ base) →
    PostgreSQLEventStore.insertLoop s events base =
      .ok ⟨s.rows ++ PostgreSQLEventStore.mkRows base events⟩ := by
  induction events with
  | nil =>
    intro s base a _ _
    cases s
    simp [PostgreSQLEventStore.insertLoop, PostgreSQLEventStore.mkRows]
  | cons e rest ih =>
    intro s base a hagg hbound
    have hae : e.aggregateId = a := hagg e (List.mem_cons_self e rest)
    have htail : ∀ e' ∈ rest, e'.aggregateId = a :=
      fun e' he' => hagg e' (List.mem_cons_of_mem e he')
    have hdup : (s.rows.any
        (fun r => decide (r.aggregateId = e.aggregateId ∧ r.version = base + 1))) = false := by
      rw [List.any_eq_false]
      intro r hr
      simp only [decide_eq_true_eq]
      rintro ⟨h1, h2⟩
      have := hbound r hr (h1.trans hae)
      omega
    have hnewbound : ∀ r ∈ s.rows ++ [PostgreSQLEventStore.toRow e (base + 1)],
        r.aggregateId = a → r.version ≤ base + 1 := by
      intro r hr hra
      rcases List.mem_append.mp hr with hr | hr
      · have := hbound r hr hra
        omega
      · simp only [List.mem_singleton] at hr
        subst hr
        simp [PostgreSQLEventStore.toRow]
    unfold PostgreSQLEventStore.insertLoop PostgreSQLEventStore.insertEvent
    rw [hdup]
    show PostgreSQLEventStore.insertLoop
        ⟨s.rows ++ [PostgreSQLEventStore.toRow e (base + 1)]⟩ rest (base + 1) = _
    rw [ih ⟨s.rows ++ [PostgreSQLEventStore.toRow e (base + 1)]⟩ (base + 1) a htail hnewbound]
    simp [PostgreSQLEventStore.mkRows, List.append_assoc]

/-- C10: with a non-empty batch for aggregate a whose stored history is
the contiguous run 1 .. N (so the current version is N = expectedVersion),
saveEvents succeeds and appends rows whose version column is computed by
the store as expectedVersion + i + 1 for the i-th event — the events' own
version fields are never consulted (mkRows/toRow take the version as a
separate argument) — leaving the aggregate's stored history contiguous
1 .. N + batch length; the UNIQUE(aggregate_id, version) checks inside
insertEvent all pass, which the success of the first conjunct proves. -/
theorem saveEvents_assigns_contiguous_versions (s : EventStoreState)
    (a : String) (events : List DomainEvent) (N : Nat)
    (hne : events ≠ [])
    (hagg : ∀ e ∈ events, e.aggregateId = a)
    (hv : PostgreSQLEventStore.versionsFor s a = seqVersions 0 N) :
    PostgreSQLEventStore.saveEvents s a events N =
      .ok ⟨s.rows ++ PostgreSQLEventStore.mkRows N events⟩
    ∧ PostgreSQLEventStore.versionsFor
        ⟨s.rows ++ PostgreSQLEventStore.mkRows N events⟩ a =
      seqVersions 0 (N + events.length)
    ∧ (PostgreSQLEventStore.mkRows (N : Int) events).map StoredEvent.version =
      seqVersions (N : Int) events.length
    ∧ (∀ (i : Nat) (hi : i < (seqVersions (N : Int) events.length).length),
        (seqVersions (N : Int) events.length).get ⟨i, hi⟩ = (N : Int) + i + 1) := by
  have hcur : PostgreSQLEventStore.getCurrentVersion s a = N := by
    unfold PostgreSQLEventStore.getCurrentVersion
    rw [hv, maxVersion_seqVersions]
  have hbound : ∀ r ∈ s.rows, r.aggregateId = a → r.version ≤ (N : Int) := by
    intro r hr hra
    have hmem : r.version ∈ PostgreSQLEventStore.versionsFor s a := by
      unfold PostgreSQLEventStore.versionsFor
      exact List.mem_map.mpr ⟨r, List.mem_filter.mpr ⟨hr, by simp [hra]⟩, rfl⟩
    rw [hv] at hmem
    have := mem_seqVersions_le N 0 r.version hmem
    omega
  have hlen : ¬events.length = 0 := by
    simpa [List.length_eq_zero] using hne
  refine ⟨?_, ?_, mkRows_map_version events N, seqVersions_get events.length N⟩
  · unfold PostgreSQLEventStore.saveEvents
    rw [if_neg hlen]
    simp only [hcur]
    rw [if_neg (by simp : ¬((N : Int) ≠ (N : Int)))]
    exact insertLoop_ok events s N a hagg hbound
  · rw [versionsFor_append, hv, versionsFor_mkRows events a hagg N]
    have h := seqVersions_append events.length N 0
    simpa using h

/-- A fixture event for the C10 witness, owned by aggregate w; its stamped
version field is deliberately 7 to exhibit that the store ignores it. -/
def evW : DomainEvent := ⟨"ew", "w", 7, 0, .created "X" none .low none⟩

/-- C10 witness: a singleton batch on an empty store is stored with
version 1 (0 + 0 + 1), not the stamped 7, and the history is the run
1 .. 1. -/
theorem saveEvents_assigns_contiguous_versions_witness :
    PostgreSQLEventStore.saveEvents ⟨[]⟩ "w" [evW] 0 =
      .ok ⟨([] : List StoredEvent) ++ PostgreSQLEventStore.mkRows 0 [evW]⟩
    ∧ PostgreSQLEventStore.versionsFor
        ⟨([] : List StoredEvent) ++ PostgreSQLEventStore.mkRows 0 [evW]⟩ "w" =
      seqVersions 0 (0 + 1) :=
  ⟨(saveEvents_assigns_contiguous_versions ⟨[]⟩ "w" [evW] 0
      (by decide) (by decide) (by decide)).1,
   ((saveEvents_assigns_contiguous_versions ⟨[]⟩ "w" [evW] 0
      (by decide) (by decide) (by decide)).2).1⟩
